import Mathlib

/-!
Verification of the pdfsm.h pushdown finite-state-machine engine.

Shallow embedding of `pdfsm::StateMachine` / `pdfsm::StateMachineHandler`
(file `pdfsm.h`). States are enum integers, modelled as `Nat`. The record
`StateMachine<State>` is `int stack[N], top = -1`; we model the stack as a
total map `Int → Nat` so that the out-of-range indices the C++ code can
touch (index `N` on an unchecked push, index `-1` on a pop of the sole
entry) are observable in the model; the valid storage is indices
`0 .. N-1`. The handler's transition table `std::bitset<N> tt[N]` is a
function `Nat → Nat → Bool` built by the setup loop; the behavior table
`bt` maps a state integer to the behavior registered for it. Lifecycle
hooks do not mutate the machine, so each operation returns the list of
hook invocations it performs (in call order) next to the updated record;
a thrown `std::runtime_error` or a failed `assert` is an `Except.error`,
which by construction carries no mutated record and no hook events —
exactly the C++ behaviour, since `check` throws before any mutation.
-/

namespace Pdfsm

/-- A hook invocation dispatched by the handler. `enter x` is
`bt[x]->OnEnter(ctx)`, `terminate x` is `bt[x]->OnTerminate(ctx)`, and so
on; `x` is the state integer used to index `bt`. -/
inductive Ev : Type
  | enter (x : Nat)
  | terminate (x : Nat)
  | pause (x : Nat)
  | resume (x : Nat)
  | beforeUpdate (x : Nat)
  | update (x : Nat)
  deriving DecidableEq, Repr

/-- `StateMachine<State>`: `int stack[N], top = -1`. The stack array is a
total map from `Int` indices so that out-of-bounds accesses are visible;
the record itself is pure data. `top = -1` means not started. -/
structure Fsm where
  stack : Int → Nat
  top : Int

/-- The error message of `StateMachineHandler::check`. -/
def invalidJumpMsg (src dst : Nat) : String :=
  "pdfsm: invalid jump from " ++ toString src ++ " to " ++ toString dst

/-- `StateMachineHandler::check`: throws unless `tt[from][to]` is set. -/
def check (tt : Nat → Nat → Bool) (src dst : Nat) : Except String Unit :=
  if tt src dst then Except.ok () else Except.error (invalidJumpMsg src dst)

/-- `StateMachineHandler::Jump`. Mirrors the source: if the stack is
non-empty, `check` the transition (throwing aborts with no mutation and
no hooks), fire `OnTerminate` on the old top while decrementing the
cursor, then write the target at the pre-incremented cursor and fire
`OnEnter` on it. On an empty stack the check and `OnTerminate` are
skipped (bootstrap path). -/
def Jump (tt : Nat → Nat → Bool) (m : Fsm) (dst : Nat) : Except String (Fsm × List Ev) :=
  let x : Nat := dst
  if m.top = -1 then
    Except.ok (⟨Function.update m.stack (m.top + 1) x, m.top + 1⟩, [Ev.enter x])
  else
    match check tt (m.stack m.top) x with
    | Except.error e => Except.error e
    | Except.ok _ =>
        Except.ok (⟨Function.update m.stack (m.top - 1 + 1) x, m.top - 1 + 1⟩,
          [Ev.terminate (m.stack m.top), Ev.enter x])

/-- `StateMachineHandler::Push`. Mirrors the source: if the stack is
non-empty, `check` the transition and fire `OnPause` on the current top;
then (unconditionally, with no capacity test) write the target at the
incremented cursor and fire `OnEnter`. -/
def Push (tt : Nat → Nat → Bool) (m : Fsm) (dst : Nat) : Except String (Fsm × List Ev) :=
  let x : Nat := dst
  if m.top = -1 then
    Except.ok (⟨Function.update m.stack (m.top + 1) x, m.top + 1⟩, [Ev.enter x])
  else
    match check tt (m.stack m.top) x with
    | Except.error e => Except.error e
    | Except.ok _ =>
        Except.ok (⟨Function.update m.stack (m.top + 1) x, m.top + 1⟩,
          [Ev.pause (m.stack m.top), Ev.enter x])

/-- `StateMachineHandler::Pop`. The source asserts `m->top >= 0` (a failed
assert is the error case), then fires `OnTerminate` on the current top
while decrementing the cursor, then fires `OnResume` on whatever
`stack[top]` now reads — which is `stack[-1]` when the popped entry was
the only one. -/
def Pop (m : Fsm) : Except String (Fsm × List Ev) :=
  if 0 ≤ m.top then
    Except.ok (⟨m.stack, m.top - 1⟩,
      [Ev.terminate (m.stack m.top), Ev.resume (m.stack (m.top - 1))])
  else Except.error "assert failed: m->top >= 0"

/-- `StateMachineHandler::Update`: `BeforeUpdate` on the behavior of the
top state; if it returns true, stop, else `Update` on the same behavior.
`bu x` is the value `bt[x]->BeforeUpdate(ctx)` returns this tick. -/
def Update (bu : Nat → Bool) (m : Fsm) : List Ev :=
  if bu (m.stack m.top) then [Ev.beforeUpdate (m.stack m.top)]
  else [Ev.beforeUpdate (m.stack m.top), Ev.update (m.stack m.top)]

/-- `StateMachineHandler::SetHandlingFsm`: bind the record; if it is
unstarted (`top == -1`), do `Jump(ctx, State(0))`. -/
def SetHandlingFsm (tt : Nat → Nat → Bool) (m : Fsm) : Except String (Fsm × List Ev) :=
  if m.top = -1 then Jump tt m 0 else Except.ok (m, [])

/-- `StateMachineHandler::Top`: asserts `m->top >= 0`, then returns
`stack[top]`. -/
def Top (m : Fsm) : Except String Nat :=
  if 0 ≤ m.top then Except.ok (m.stack m.top) else Except.error "assert failed: m->top >= 0"

/-! ### Setup: the transition table

`setup` runs `tt[C(t.from)][C(to)] = 1` for every target of every entry,
over a `std::bitset` table that starts all-zero. -/

/-- One `tt[src][dst] = 1` assignment. -/
def setTrans (tt : Nat → Nat → Bool) (src dst : Nat) : Nat → Nat → Bool :=
  fun a b => if a = src ∧ b = dst then true else tt a b

/-- The inner loop of `setup`: set every target of one transition entry. -/
def markTargets (src : Nat) (targets : List Nat) (tt : Nat → Nat → Bool) :
    Nat → Nat → Bool :=
  targets.foldl (fun acc dst => setTrans acc src dst) tt

/-- The transition half of `setup`: fold the entries over the all-false
bitset table. An entry is `(from, targets)` as in `pdfsm::Transition`. -/
def setupTT (ts : List (Nat × List Nat)) : Nat → Nat → Bool :=
  ts.foldl (fun tt t => markTargets t.1 t.2 tt) (fun _ _ => false)

/-! ### Setup: the behavior table

The behavior half of `setup` runs, for each behavior `b` in table order:
`bt[C(b->StateValue())] = b.get(); b->bindHandler(this); b->OnSetup();`.
We identify each behavior instance by its position in the table; the
input is the list of self-reported state values, in table order. `bt`
starts as uninitialized pointers, modelled as `none` everywhere. The
second component collects the `OnSetup` calls (behavior positions, in
call order). -/

/-- The `setup` behavior loop: `bs` are the remaining self-reported state
values, `k` the table position of the first of them, `bt` the table so
far. No failure path exists in the source. -/
def setupBehaviors : List Nat → Nat → (Nat → Option Nat) → ((Nat → Option Nat) × List Nat)
  | [], _, bt => (bt, [])
  | s :: rest, k, bt =>
      let r := setupBehaviors rest (k + 1) (Function.update bt s (some k))
      (r.1, k :: r.2)

/-- The behavior table `bt` produced by `setup`: state integer to the
table position of the behavior registered for it. -/
def setupBT (bs : List Nat) : Nat → Option Nat :=
  (setupBehaviors bs 0 (fun _ => none)).1

/-- The `OnSetup` invocations `setup` performs, as behavior positions in
call order. -/
def setupOnSetups (bs : List Nat) : List Nat :=
  (setupBehaviors bs 0 (fun _ => none)).2

/-- Position (offset by `k`) of the last behavior in `bs` claiming state
`s`, if any: the "last writer" of `bt[s]` in the setup loop. -/
def lastClaim : List Nat → Nat → Nat → Option Nat
  | [], _, _ => none
  | b :: rest, k, s =>
      match lastClaim rest (k + 1) s with
      | some j => some j
      | none => if b = s then some k else none

/-! ### Observation helpers on operation results -/

/-- The cursor of the record an operation returned, if it succeeded. -/
def resTop (r : Except String (Fsm × List Ev)) : Option Int :=
  match r with
  | Except.ok p => some p.1.top
  | Except.error _ => none

/-- The hook events of a successful operation. -/
def resEvents (r : Except String (Fsm × List Ev)) : Option (List Ev) :=
  match r with
  | Except.ok p => some p.2
  | Except.error _ => none

/-- A stack cell of the record a successful operation returned. -/
def resStackAt (r : Except String (Fsm × List Ev)) (i : Int) : Option Nat :=
  match r with
  | Except.ok p => some (p.1.stack i)
  | Except.error _ => none

/-- Sequence two operations on the record, as a caller would (an exception
aborts the sequence). -/
def andThen (r : Except String (Fsm × List Ev))
    (f : Fsm → Except String (Fsm × List Ev)) : Except String (Fsm × List Ev) :=
  match r with
  | Except.ok p => f p.1
  | Except.error e => Except.error e

/-! ### Concrete fixtures used by the bug-exhibiting theorems -/

/-- The transition table of a single-state machine (`N = 1`) whose only
entry is the self loop `0 → 0`. -/
def ttLoop : Nat → Nat → Bool := setupTT [(0, [0])]

/-- A record at full capacity for `N = 1`: the single valid cell (index 0)
holds state `0`; every out-of-range index reads the sentinel `7`, standing
for whatever memory lies beyond the array. -/
def fullOne : Fsm := ⟨fun i => if i = 0 then 0 else 7, 0⟩

/-- An unstarted record for `N = 1` (`top = -1`); the sentinel `7` again
marks unwritten memory. -/
def emptyOne : Fsm := ⟨fun _ => 7, -1⟩

/-- A record holding exactly one entry: state `5` at index 0; all other
(invalid) indices read the sentinel `9`. -/
def oneDeep : Fsm := ⟨fun i => if i = 0 then 5 else 9, 0⟩

/-! ### Characterization of the setup loops -/

lemma markTargets_true_iff (src : Nat) (targets : List Nat) (tt : Nat → Nat → Bool)
    (a b : Nat) :
    markTargets src targets tt a b = true ↔
      (tt a b = true ∨ (a = src ∧ b ∈ targets)) := by
  induction targets generalizing tt with
  | nil => simp [markTargets]
  | cons d rest ih =>
      have hstep : markTargets src (d :: rest) tt a b
          = markTargets src rest (setTrans tt src d) a b := rfl
      rw [hstep, ih]
      simp only [setTrans, List.mem_cons]
      split_ifs with had
      · simp only [true_or, true_iff]
        tauto
      · tauto

lemma setupTT_foldl_true_iff (ts : List (Nat × List Nat)) (tt0 : Nat → Nat → Bool)
    (a b : Nat) :
    (ts.foldl (fun tt t => markTargets t.1 t.2 tt) tt0) a b = true ↔
      (tt0 a b = true ∨ ∃ t ∈ ts, t.1 = a ∧ b ∈ t.2) := by
  induction ts generalizing tt0 with
  | nil => simp
  | cons t rest ih =>
      have hstep : ((t :: rest).foldl (fun tt u => markTargets u.1 u.2 tt) tt0) a b
          = (rest.foldl (fun tt u => markTargets u.1 u.2 tt) (markTargets t.1 t.2 tt0)) a b :=
        rfl
      rw [hstep, ih, markTargets_true_iff]
      simp only [List.mem_cons]
      constructor
      · rintro ((h | ⟨h1, h2⟩) | ⟨u, hu, h⟩)
        · exact Or.inl h
        · exact Or.inr ⟨t, Or.inl rfl, h1.symm, h2⟩
        · exact Or.inr ⟨u, Or.inr hu, h⟩
      · rintro (h | ⟨u, (rfl | hu), h1, h2⟩)
        · exact Or.inl (Or.inl h)
        · exact Or.inl (Or.inr ⟨h1.symm, h2⟩)
        · exact Or.inr ⟨u, hu, h1, h2⟩

lemma setupBehaviors_fst (bs : List Nat) (k : Nat) (bt : Nat → Option Nat) (s : Nat) :
    (setupBehaviors bs k bt).1 s =
      match lastClaim bs k s with
      | some j => some j
      | none => bt s := by
  induction bs generalizing k bt with
  | nil => rfl
  | cons b rest ih =>
      show (setupBehaviors rest (k + 1) (Function.update bt b (some k))).1 s = _
      rw [ih]
      cases h : lastClaim rest (k + 1) s with
      | some j => simp [lastClaim, h]
      | none =>
          simp only [lastClaim, h]
          by_cases hb : b = s
          · subst hb
            simp [Function.update]
          · rw [if_neg hb, Function.update_noteq (fun hs => hb hs.symm)]

lemma setupBehaviors_snd (bs : List Nat) (k : Nat) (bt : Nat → Option Nat) :
    (setupBehaviors bs k bt).2 = List.range' k bs.length := by
  induction bs generalizing k bt with
  | nil => rfl
  | cons b rest ih =>
      show k :: (setupBehaviors rest (k + 1) (Function.update bt b (some k))).2 = _
      rw [ih, List.length_cons, List.range'_succ]

/-! ### The claims -/

/-- Claim C1. The claim says a Push on a record already at capacity `N`
fails with StackOverflow and performs no mutation. The source has no
capacity test at all: with `N = 1`, a full record (`top = 0`) and the
permitted self loop `0 → 0`, `Push` succeeds — it fires `OnPause` and
`OnEnter`, moves the cursor to `1` (= `N`, outside the valid range
`0 .. N-1`, so depth `2 > N`) and writes state `0` over the out-of-bounds
cell at index `1` (which held the sentinel `7`): a buffer overflow, not a
StackOverflow error. -/
theorem push_at_capacity_overflows_buffer :
    resTop (Push ttLoop fullOne 0) = some 1 ∧
    resEvents (Push ttLoop fullOne 0) = some [Ev.pause 0, Ev.enter 0] ∧
    resStackAt (Push ttLoop fullOne 0) 1 = some 0 := by
  decide

/-- Claim C2. The claim says Pop requires at least two entries and a call
with exactly one entry (or an empty stack) is rejected before executing.
The source only asserts `m->top >= 0`, so with exactly one entry
(`top = 0`, state `5` at index 0) Pop is not rejected: it fires
`OnTerminate` on the sole state, leaves the cursor at `-1` (depth 0) and
fires `OnResume` on whatever `stack[-1]` reads (the out-of-bounds sentinel
`9`). Only the empty-stack call (`top = -1`) is rejected by the assert. -/
theorem pop_sole_entry_not_rejected :
    resTop (Pop oneDeep) = some (-1) ∧
    resEvents (Pop oneDeep) = some [Ev.terminate 5, Ev.resume 9] ∧
    resTop (Pop emptyOne) = none := by
  decide

/-- Claim C3: on a bound record with non-empty stack, if the transition
table does not permit `top → x`, both `Jump` and `Push` fail with the
invalid-transition error, before any hook fires and before any write to
the record — the error result carries no mutated record and no events. -/
theorem invalid_transition_fails_atomically (tt : Nat → Nat → Bool) (m : Fsm) (x : Nat)
    (htop : 0 ≤ m.top) (hval : tt (m.stack m.top) x = false) :
    Jump tt m x = Except.error (invalidJumpMsg (m.stack m.top) x) ∧
    Push tt m x = Except.error (invalidJumpMsg (m.stack m.top) x) := by
  have hne : ¬ m.top = -1 := by omega
  constructor
  · simp [Jump, check, hne, hval]
  · simp [Push, check, hne, hval]

/-- Witness for C3: in the one-transition table `0 → 1`, jumping or
pushing from state `0` to state `2` fails with the invalid-transition
error. -/
theorem invalid_transition_fails_atomically_witness :
    Jump (setupTT [(0, [1])]) (Fsm.mk (fun _ => 0) 0) 2 =
        Except.error (invalidJumpMsg 0 2) ∧
      Push (setupTT [(0, [1])]) (Fsm.mk (fun _ => 0) 0) 2 =
        Except.error (invalidJumpMsg 0 2) :=
  invalid_transition_fails_atomically (setupTT [(0, [1])]) (Fsm.mk (fun _ => 0) 0) 2
    (by decide) (by decide)

/-- Claim C4: binding an unstarted record (`top = -1`) bootstraps it with
an implicit jump to state `0` that consults no transition table (the
statement holds for every `tt`): the result has depth 1 (`top = 0`),
state `0` in cell 0, and exactly one `OnEnter` on state `0`'s behavior.
Binding a started record fires no hooks and leaves it unchanged. -/
theorem bind_bootstraps_empty_record (tt : Nat → Nat → Bool) (m : Fsm) :
    (m.top = -1 →
      SetHandlingFsm tt m =
        Except.ok (⟨Function.update m.stack 0 0, 0⟩, [Ev.enter 0])) ∧
    (m.top ≠ -1 → SetHandlingFsm tt m = Except.ok (m, [])) := by
  constructor
  · intro h
    have hz : (-1 : Int) + 1 = 0 := rfl
    simp [SetHandlingFsm, Jump, h, hz]
  · intro h
    simp [SetHandlingFsm, h]

/-- Witness for C4: binding the unstarted `emptyOne` record (under the
all-false transition table) bootstraps to state `0`; binding the started
`fullOne` record is a no-op with no events. -/
theorem bind_bootstraps_empty_record_witness :
    SetHandlingFsm (fun _ _ => false) emptyOne =
        Except.ok (⟨Function.update emptyOne.stack 0 0, 0⟩, [Ev.enter 0]) ∧
      SetHandlingFsm (fun _ _ => false) fullOne = Except.ok (fullOne, []) :=
  ⟨(bind_bootstraps_empty_record (fun _ _ => false) emptyOne).1 rfl,
   (bind_bootstraps_empty_record (fun _ _ => false) fullOne).2 (by decide)⟩

/-- Claim C5: on a non-empty stack with a permitted target, Jump replaces
the top in place: it fires `OnTerminate` on the outgoing top, writes the
target at the unchanged cursor position (`top - 1 + 1 = top`), fires
`OnEnter` on the target, in that order — and every stack cell other than
the top one is untouched. -/
theorem jump_is_lateral (tt : Nat → Nat → Bool) (m : Fsm) (x : Nat)
    (htop : 0 ≤ m.top) (hval : tt (m.stack m.top) x = true) :
    Jump tt m x =
      Except.ok (⟨Function.update m.stack m.top x, m.top⟩,
        [Ev.terminate (m.stack m.top), Ev.enter x]) ∧
    ∀ i : Int, i ≠ m.top → Function.update m.stack m.top x i = m.stack i := by
  have hne : ¬ m.top = -1 := by omega
  have hc : m.top - 1 + 1 = m.top := by omega
  constructor
  · simp [Jump, check, hne, hval, hc]
  · intro i hi
    exact Function.update_noteq hi x m.stack

/-- Witness for C5: with the table `0 → 1` and a depth-1 record in state
`0`, `Jump` to `1` succeeds, keeps the cursor at 0 and fires
`OnTerminate 0` then `OnEnter 1`. -/
theorem jump_is_lateral_witness :
    Jump (setupTT [(0, [1])]) (Fsm.mk (fun _ => 0) 0) 1 =
      Except.ok (⟨Function.update (Fsm.mk (fun _ => 0) 0).stack 0 1, 0⟩,
        [Ev.terminate 0, Ev.enter 1]) :=
  (jump_is_lateral (setupTT [(0, [1])]) (Fsm.mk (fun _ => 0) 0) 1
    (by decide) (by decide)).1

/-- Claim C6. The per-operation depth deltas hold (bind gives depth 1,
Push adds 1, Pop subtracts 1), but the claimed bounds `1 ≤ depth ≤ N` are
not enforced by the source: with `N = 1` and the self loop `0 → 0`,
binding the unstarted record gives depth 1 (`top = 0`), a further Push
succeeds and gives depth 2 (`top = 1 = N`) — exceeding `N` — and a Pop on
a depth-1 record gives depth 0 (`top = -1`) — dropping below 1. -/
theorem depth_bounds_not_enforced :
    resTop (SetHandlingFsm ttLoop emptyOne) = some 0 ∧
    resTop (andThen (SetHandlingFsm ttLoop emptyOne) (fun m => Push ttLoop m 0)) =
      some 1 ∧
    resTop (Pop fullOne) = some (-1) := by
  decide

/-- Claim C7: Update asks `BeforeUpdate` of the behavior of the top state;
if it answers true the event list is exactly that one call, otherwise it
is that call followed by exactly one `Update` on the same top behavior —
no other behavior appears in the dispatch. -/
theorem update_ticks_only_top (bu : Nat → Bool) (m : Fsm) :
    (bu (m.stack m.top) = true →
      Update bu m = [Ev.beforeUpdate (m.stack m.top)]) ∧
    (bu (m.stack m.top) = false →
      Update bu m = [Ev.beforeUpdate (m.stack m.top), Ev.update (m.stack m.top)]) := by
  constructor
  · intro h
    simp [Update, h]
  · intro h
    simp [Update, h]

/-- Witness for C7: a record whose top state is `3`, under a behavior
whose `BeforeUpdate` returns true (suppressed tick) and one whose
`BeforeUpdate` returns false (normal tick). -/
theorem update_ticks_only_top_witness :
    Update (fun _ => true) (Fsm.mk (fun _ => 3) 0) = [Ev.beforeUpdate 3] ∧
    Update (fun _ => false) (Fsm.mk (fun _ => 3) 0) =
      [Ev.beforeUpdate 3, Ev.update 3] :=
  ⟨(update_ticks_only_top (fun _ => true) (Fsm.mk (fun _ => 3) 0)).1 rfl,
   (update_ticks_only_top (fun _ => false) (Fsm.mk (fun _ => 3) 0)).2 rfl⟩

/-- Claim C8: the table built by setup permits `a → b` exactly when some
transition entry has `from = a` and `b` among its targets; every unlisted
ordered pair (in particular the reverse of a listed pair, unless itself
listed) stays disallowed. The handler's operations never write to the
table — in this embedding they only read it. -/
theorem transition_table_is_exact (ts : List (Nat × List Nat)) (a b : Nat) :
    setupTT ts a b = true ↔ ∃ t ∈ ts, t.1 = a ∧ b ∈ t.2 := by
  rw [setupTT, setupTT_foldl_true_iff]
  simp

/-- Counterexample to C9 as stated: the behavior table `[0, 0]` — two
behaviors (positions 0 and 1) both claiming state `0` — is not rejected:
setup completes (it has no failure path), silently records the later
behavior (position 1) for state `0`, and still invokes `OnSetup` on both
behaviors, in table order. -/
theorem setup_duplicate_states_accepted :
    setupBT [0, 0] 0 = some 1 ∧ setupOnSetups [0, 0] = [0, 1] := by
  decide

/-- Amended C9: setup never fails; each behavior is recorded at the index
of its self-reported state value, the later of two behaviors claiming the
same state silently overwriting the earlier (`lastClaim` = position of
the last claimant), and `OnSetup` is invoked exactly once per behavior in
table order (positions `0, 1, …, len-1`), before any machine is bound. -/
theorem setup_records_last_claimant (bs : List Nat) (s : Nat) :
    setupBT bs s = lastClaim bs 0 s ∧
    setupOnSetups bs = List.range bs.length := by
  constructor
  · rw [setupBT, setupBehaviors_fst]
    cases lastClaim bs 0 s <;> rfl
  · rw [setupOnSetups, setupBehaviors_snd, List.range_eq_range']

/-- Claim C10: a Push on a bound record with empty stack (`top = -1`)
skips the transition check (the statement holds for every `tt`) and the
`OnPause` hook: it writes the target as the sole entry (cell 0, depth 1)
and fires exactly one `OnEnter` on the target's behavior — Push, like
Jump, silently bootstraps an unstarted record. -/
theorem push_on_empty_bootstraps (tt : Nat → Nat → Bool) (m : Fsm) (x : Nat)
    (h : m.top = -1) :
    Push tt m x = Except.ok (⟨Function.update m.stack 0 x, 0⟩, [Ev.enter x]) := by
  have hz : (-1 : Int) + 1 = 0 := rfl
  simp [Push, h, hz]

/-- Witness for C10: pushing state `2` onto the unstarted `emptyOne`
record under the all-false transition table succeeds with a single
`OnEnter 2`. -/
theorem push_on_empty_bootstraps_witness :
    Push (fun _ _ => false) emptyOne 2 =
      Except.ok (⟨Function.update emptyOne.stack 0 2, 0⟩, [Ev.enter 2]) :=
  push_on_empty_bootstraps (fun _ _ => false) emptyOne 2 rfl

end Pdfsm
